import Mathlib

/-!
Verification of the editor model (`src/editor/model/Editor.js`).

The file shallowly embeds the parts of `EditorModel` exercised by the
specification claims:

* the change tracker (`handleUpdates` / `changesUp`, the module-level
  `timedInterval` debounce slot shared by every instance, and the deferred
  callback that bumps `changesCount`);
* the readiness state machine (`_checkReady` over `readyLoad` / `readyCanvas`);
* the persistence coordinator (`store` / `storeData`);
* the module registry (`loadModule` and the `storables` ordering rule);
* the selection / hover manager (`setSelected`, `addSelected`,
  `removeSelected`, `toggleSelected`, `setHovered`).

External collaborators that live outside the embedded source file (the
`Selected` collection, `getModel`, the storage-manager backend, window text
selection) are modelled from the specification, as marked in doc comments.
-/

/-! ## Change tracker (`handleUpdates`, lines 260-276, 36-37, 889-894) -/

/-- Options carried by a mutation notification (`opt` in `handleUpdates`). -/
structure TrackOpts where
  temporary : Bool := false
  noCount : Bool := false
  avoidStore : Bool := false
deriving DecidableEq

/-- The per-instance state read by `handleUpdates`: the `changesCount`
attribute, the derived `ready` attribute and the instance field `__skip`
(set and reset by `skip(clb)`, lines 889-894). -/
structure EditorInst where
  changesCount : Nat
  ready : Bool
  skipFlag : Bool
deriving DecidableEq

/-- The two instances the claims talk about: the primary editor and the
shallow editor created in `loadOnStart` (lines 167-177). -/
inductive InstId where
  | primary
  | shallow
deriving DecidableEq

/-- World of two editor instances.  `timed` models the module-level
`let timedInterval` (line 36): a single slot shared by every instance,
holding the owner of the currently pending deferred callback (the callback
closes over `this`, so firing it bumps the owner's counter). -/
structure TrackWorld where
  primary : EditorInst
  shallow : EditorInst
  timed : Option InstId
deriving DecidableEq

def instOf (w : TrackWorld) : InstId → EditorInst
  | InstId.primary => w.primary
  | InstId.shallow => w.shallow

def setInst (w : TrackWorld) : InstId → EditorInst → TrackWorld
  | InstId.primary, i => { w with primary := i }
  | InstId.shallow, i => { w with shallow := i }

/-- `handleUpdates(model, val, opt)` (lines 260-272): bail out when
`__skip`, `temporary`, `noCount`, `avoidStore` or `!ready`; otherwise
clear any pending timer and schedule a fresh deferred increment
(`clearTimeout(timedInterval); timedInterval = setTimeout(...)`),
replacing whatever was pending, whichever instance owned it. -/
def handleUpdates (w : TrackWorld) (who : InstId) (opt : TrackOpts) : TrackWorld :=
  let i := instOf w who
  if i.skipFlag || opt.temporary || opt.noCount || opt.avoidStore || !i.ready then w
  else { w with timed := some who }

/-- `changesUp(opts)` (lines 274-276) simply forwards to `handleUpdates`. -/
def changesUp (w : TrackWorld) (who : InstId) (opt : TrackOpts) : TrackWorld :=
  handleUpdates w who opt

/-- End of the scheduler turn: the pending `setTimeout` callback (if any)
fires, reading `changesCount || 0` of its owner and setting it to one more
(lines 267-271). -/
def fireTimed (w : TrackWorld) : TrackWorld :=
  match w.timed with
  | none => w
  | some who =>
    let i := instOf w who
    setInst { w with timed := none } who { i with changesCount := i.changesCount + 1 }

/-- A burst of consecutive mutation notifications delivered to `who` within
one scheduler turn (no timer fires in between). -/
def notifyBurst (w : TrackWorld) (who : InstId) (opts : List TrackOpts) : TrackWorld :=
  opts.foldl (fun w o => handleUpdates w who o) w

/-- A notification option object that carries none of the suppression flags. -/
def cleanOpt (o : TrackOpts) : Prop :=
  o.temporary = false ∧ o.noCount = false ∧ o.avoidStore = false

/-! ## Readiness flags (`_checkReady`, lines 116-120) -/

/-- The `readyLoad` / `readyCanvas` attributes and the derived `ready`
attribute.  All three are unset (falsy) in `defaults()`. -/
structure ReadyFlags where
  readyLoad : Bool
  readyCanvas : Bool
  ready : Bool
deriving DecidableEq

def initialFlags : ReadyFlags := ⟨false, false, false⟩

/-- An update of one of the two sub-flags (`set('readyLoad', …)` /
`set('readyCanvas', …)`). -/
inductive ReadyEv where
  | setLoad (b : Bool)
  | setCanvas (b : Bool)
deriving DecidableEq

def setFlag (f : ReadyFlags) : ReadyEv → ReadyFlags
  | ReadyEv.setLoad b => { f with readyLoad := b }
  | ReadyEv.setCanvas b => { f with readyCanvas := b }

/-- `_checkReady` (lines 116-120): set `ready` when both sub-flags are
truthy and `ready` is not yet set. -/
def checkReady (f : ReadyFlags) : ReadyFlags :=
  if f.readyLoad && f.readyCanvas && !f.ready then { f with ready := true } else f

/-- One flag update followed by the `change:readyLoad change:readyCanvas`
listener.  (Backbone only fires the listener when the value actually
changes; running the idempotent `checkReady` on a no-change update as well
is observationally identical from the all-false initial state.) -/
def applyReadyEv (f : ReadyFlags) (ev : ReadyEv) : ReadyFlags :=
  checkReady (setFlag f ev)

def runReadyEvs (f : ReadyFlags) (evs : List ReadyEv) : ReadyFlags :=
  evs.foldl applyReadyEv f

/-- The claim-side predicate: some prefix of the update sequence reaches a
state with both sub-flags true. -/
def reachedBoth (f : ReadyFlags) : List ReadyEv → Bool
  | [] => false
  | ev :: rest =>
    let f2 := applyReadyEv f ev
    (f2.readyLoad && f2.readyCanvas) || reachedBoth f2 rest

/-! ## Persistence coordinator (`store` / `storeData`, lines 621-646) -/

/-- The state `store` touches: the `changesCount` attribute and, for
`storeData`, the list of serialized objects the storable modules return
from `store(1)` (the modules themselves are external collaborators;
their return values are plain data objects). -/
structure PersistEditor where
  changesCount : Nat
  storables : List (List (String × Nat))
deriving DecidableEq

/-- JS object spread `{ ...result, ...m.store(1) }`: entries of the second
object win on key collision. -/
def mergeData (a b : List (String × Nat)) : List (String × Nat) :=
  a.filter (fun p => (b.find? (fun q => q.1 == p.1)).isNone) ++ b

/-- `storeData()` (lines 636-646): shallow-merge every storable module's
`store(1)` result in storable order; the `JSON.parse(JSON.stringify(…))`
round trip is the identity on plain data. -/
def storeData (st : PersistEditor) : List (String × Nat) :=
  st.storables.foldl mergeData []

/-- `store(resolve, reject, options)` (lines 621-634).
Modelled from the spec: the storage-manager backend (`sm.store`) is
external repository code; it receives the aggregated data and answers
either a success result (then the success callback runs) or an error
(then the failure callback runs).  The second component of the result
records which caller-supplied callback was invoked and with what value. -/
def store (st : PersistEditor) (sm : Option (List (String × Nat) → Except Nat Nat)) :
    PersistEditor × Option (Except Nat Nat) :=
  match sm with
  | none => (st, none)
  | some backend =>
    match backend (storeData st) with
    | Except.ok r => ({ st with changesCount := 0 }, some (Except.ok r))
    | Except.error e => (st, some (Except.error e))

/-! ## Module registry (`loadModule`, lines 205-232) -/

/-- The shape of a module as `loadModule` inspects it: its `name`, whether
it exposes the `storageKey` / `store` / `load` triad, an `onLoad` hook, and
the `private` flag. -/
structure ModDesc where
  name : String
  hasStorageKey : Bool
  hasStore : Bool
  hasLoad : Bool
  hasOnLoad : Bool
  priv : Bool
deriving DecidableEq

/-- `Mod.name.charAt(0).toLowerCase() + Mod.name.slice(1)` (line 209). -/
def lowerFirst (s : String) : String :=
  match s.toList with
  | [] => ""
  | c :: rest => String.mk (c.toLower :: rest)

def isStorable (m : ModDesc) : Bool :=
  m.hasStorageKey && m.hasStore && m.hasLoad

def isDomComponents (m : ModDesc) : Bool :=
  lowerFirst m.name == "domComponents"

def dcStorable (m : ModDesc) : Bool := isStorable m && isDomComponents m

def otherStorable (m : ModDesc) : Bool := isStorable m && !isDomComponents m

/-- The registry lists `loadModule` appends to. -/
structure RegistryState where
  storables : List ModDesc
  toLoad : List ModDesc
  modules : List ModDesc
deriving DecidableEq

def initRegistry : RegistryState := ⟨[], [], []⟩

/-- `loadModule(moduleName)` (lines 205-232), restricted to its effect on
the three registry lists: a module exposing the full storage triad is
pushed onto `storables` — unshifted instead when its derived name is
`domComponents`; a module with `onLoad` is pushed onto `toLoad`; every
module is pushed onto `modules`. -/
def loadModule (st : RegistryState) (m : ModDesc) : RegistryState :=
  let storables :=
    if isStorable m then
      if isDomComponents m then m :: st.storables else st.storables ++ [m]
    else st.storables
  let toLoad := if m.hasOnLoad then st.toLoad ++ [m] else st.toLoad
  { storables := storables, toLoad := toLoad, modules := st.modules ++ [m] }

def loadModules (st : RegistryState) (ms : List ModDesc) : RegistryState :=
  ms.foldl loadModule st

/-! ## Selection / hover manager (lines 315-478)

Entities are identified by numeric ids.  `Comp` carries exactly the fields
the embedded code reads: the `selectable` / `hoverable` flags, the
`parent()` back-reference and the owning `collection`.  `getModel` (from
`utils/mixins`, outside the embedded file) resolves an input to a component
or to nothing; targets are therefore given directly as `Option Nat`
(`none` = unresolvable input, i.e. `getModel` returned `undefined`). -/

structure Comp where
  cid : Nat
  selectable : Bool
  hoverable : Bool
  parentId : Option Nat
  collId : Option Nat
deriving DecidableEq

/-- The document plus the configuration flag `multipleSelection` read by
`setSelected`.  `colls` maps a collection id to its ordered member ids. -/
structure World where
  comps : List Comp
  colls : List (Nat × List Nat)
  multipleSelection : Bool

def World.findComp (w : World) (i : Nat) : Option Comp :=
  w.comps.find? (fun c => c.cid == i)

def World.selectableOf (w : World) (i : Nat) : Bool :=
  ((w.findComp i).map Comp.selectable).getD false

def World.hoverableOf (w : World) (i : Nat) : Bool :=
  ((w.findComp i).map Comp.hoverable).getD false

def World.parentOf (w : World) (i : Nat) : Option Nat :=
  (w.findComp i).bind Comp.parentId

def World.collOf (w : World) (i : Nat) : Option Nat :=
  (w.findComp i).bind Comp.collId

def World.collMembers (w : World) (k : Nat) : List Nat :=
  (((w.colls.find? (fun p => p.1 == k)).map Prod.snd)).getD []

/-- `model.index()` — position inside the owning collection.  Modelled from
the spec (the component class is outside the embedded file): the index of
the entity in its parent collection, `0` when it has none. -/
def World.indexIn (w : World) (i : Nat) : Nat :=
  match w.collOf i with
  | some k => (w.collMembers k).indexOf i
  | none => 0

/-- `coll.at(i)` — the member at position `i`, if any. -/
def World.collAt (w : World) (k : Option Nat) (i : Nat) : Option Nat :=
  match k with
  | some k => (w.collMembers k)[i]?
  | none => none

/-- The Selection Set and the `componentHovered` attribute.  Modelled from
the spec: the `Selected` collection (`./Selected`, outside the embedded
file) is an ordered sequence of entity references without duplicates. -/
structure EdState where
  selected : List Nat
  hovered : Option Nat
deriving DecidableEq

/-- `Selected.addComponent` — append if absent.  Modelled from the spec:
adding an unresolved reference is a silent no-op. -/
def addComponentSel (sel : List Nat) (m : Option Nat) : List Nat :=
  match m with
  | none => sel
  | some i => if sel.contains i then sel else sel ++ [i]

/-- `Selected.removeComponent` — drop every listed entity. -/
def removeComponentSel (sel : List Nat) (ms : List Nat) : List Nat :=
  sel.filter (fun s => !(ms.contains s))

/-- The option object consumed by the selection / hover operations: the
modifier keys extracted from `opts.event` and the `abort` / `useValid` /
`forceChange` flags. -/
structure SelOpts where
  ctrlKey : Bool := false
  shiftKey : Bool := false
  abort : Bool := false
  useValid : Bool := false
  forceChange : Bool := false
deriving DecidableEq

/-- `removeSelected` (lines 419-421). -/
def removeSelected (st : EdState) (ms : List Nat) : EdState :=
  { st with selected := removeComponentSel st.selected ms }

/-- `addSelected` (lines 400-411) on a single resolved-or-not target:
skip a resolved entity that is not `selectable`; on `forceChange` remove
first; then `Selected.addComponent`. -/
def addSelected (w : World) (st : EdState) (model : Option Nat) (forceChange : Bool) : EdState :=
  match model with
  | some m =>
    if !(w.selectableOf m) then st
    else
      let st := if forceChange then removeSelected st [m] else st
      { st with selected := addComponentSel st.selected (some m) }
  | none => st

/-- `toggleSelected` (lines 429-440): remove when present, else add. -/
def toggleSelected (w : World) (st : EdState) (model : Option Nat) (opts : SelOpts) : EdState :=
  match model with
  | some m =>
    if st.selected.contains m then removeSelected st [m]
    else addSelected w st (some m) opts.forceChange
  | none => st

/-- The `useValid` parent walk:
`while (parent && !parent.get('selectable')) parent = parent.parent()`.
Structured on explicit fuel; the source loop terminates on every acyclic
parent chain, and the fuel used at call sites (`w.comps.length`) covers
any such chain. -/
def climbSelectable (w : World) : Nat → Option Nat → Option Nat
  | _, none => none
  | 0, some _ => none
  | fuel + 1, some p =>
    if w.selectableOf p then some p else climbSelectable w fuel (w.parentOf p)

/-- Same walk over the `hoverable` flag (`setHovered`, lines 461-464). -/
def climbHoverable (w : World) : Nat → Option Nat → Option Nat
  | _, none => none
  | 0, some _ => none
  | fuel + 1, some p =>
    if w.hoverableOf p then some p else climbHoverable w fuel (w.parentOf p)

/-- The min/max scan of `setSelected`'s range branch (lines 356-369):
among currently selected entities sharing the candidate's collection, the
greatest index strictly below the candidate's and the least index strictly
above it. -/
def computeMinMax (w : World) (coll : Option Nat) (index : Nat)
    (selectedAll : List Nat) : Option Nat × Option Nat :=
  selectedAll.foldl
    (fun mm sel =>
      let selColl := w.collOf sel
      let selIndex := w.indexIn sel
      if selColl == coll then
        if selIndex < index then
          (some (match mm.1 with | none => selIndex | some v => Nat.max v selIndex), mm.2)
        else if selIndex > index then
          (mm.1, some (match mm.2 with | none => selIndex | some v => Nat.min v selIndex))
        else mm
      else mm)
    (none, none)

/-- `while (min !== index) { this.addSelected(coll.at(min)); min++ }`
(lines 371-376): adds members at positions `lo, lo+1, …, index-1`. -/
def addRangeUp (w : World) (coll : Option Nat) : Nat → Nat → EdState → EdState
  | _, 0, st => st
  | lo, steps + 1, st => addRangeUp w coll (lo + 1) steps (addSelected w st (w.collAt coll lo) false)

/-- `while (max !== index) { this.addSelected(coll.at(max)); max-- }`
(lines 378-383): adds members at positions `hi, hi-1, …, index+1`. -/
def addRangeDown (w : World) (coll : Option Nat) : Nat → Nat → EdState → EdState
  | _, 0, st => st
  | hi, steps + 1, st => addRangeDown w coll (hi - 1) steps (addSelected w st (w.collAt coll hi) false)

/-- A `setSelected` target: a single value or an array (`multiple`). -/
inductive SelTarget where
  | one (m : Option Nat)
  | many (ms : List (Option Nat))

/-- The body of the `els.forEach` callback in `setSelected`
(lines 329-391).  Returns `none` when the source would throw: in the range
branch `model.collection` is dereferenced even when `model` is
`undefined` (line 352).  `clearSelection` only clears the window text
selection (external) and has no effect on the editor state. -/
def setSelectedStep (w : World) (multiple : Bool) (snapshot : List Nat) (opts : SelOpts)
    (st : EdState) (el : Option Nat) : Option EdState :=
  let model0 : Option (Option Nat) :=
    match el with
    | some m =>
      if !(w.selectableOf m) || opts.abort then
        if opts.useValid then some (climbSelectable w w.comps.length (w.parentOf m))
        else none
      else some (some m)
    | none => some none
  match model0 with
  | none => some st
  | some model =>
    if opts.ctrlKey && w.multipleSelection then
      some (toggleSelected w st model {})
    else if opts.shiftKey && w.multipleSelection then
      match model with
      | none => none
      | some m =>
        let coll := w.collOf m
        let index := w.indexIn m
        let mm := computeMinMax w coll index st.selected
        let st :=
          match mm.1 with
          | some lo => addRangeUp w coll lo (index - lo) st
          | none => st
        let st :=
          match mm.2 with
          | some hi => addRangeDown w coll hi (hi - index) st
          | none => st
        some (addSelected w st (some m) false)
    else
      let st :=
        if !multiple then
          removeSelected st
            (match model with
             | some m => snapshot.filter (fun s => s != m)
             | none => snapshot)
        else st
      some (addSelected w st model opts.forceChange)

def setSelectedGo (w : World) (multiple : Bool) (snapshot : List Nat) (opts : SelOpts) :
    EdState → List (Option Nat) → Option EdState
  | st, [] => some st
  | st, el :: rest =>
    match setSelectedStep w multiple snapshot opts st el with
    | none => none
    | some st2 => setSelectedGo w multiple snapshot opts st2 rest

/-- `setSelected(el, opts)` (lines 315-392).  The pre-pass removes, for an
array input, every selected entity absent from the new list; the snapshot
of `this.getSelectedAll()` taken before the loop feeds the plain-path
removal. -/
def setSelected (w : World) (target : SelTarget) (opts : SelOpts) (st : EdState) :
    Option EdState :=
  let multiple := match target with | SelTarget.one _ => false | SelTarget.many _ => true
  let els : List (Option Nat) :=
    match target with | SelTarget.one m => [m] | SelTarget.many ms => ms
  let snapshot := st.selected
  let st :=
    if multiple then
      removeSelected st (snapshot.filter (fun s => !(els.contains (some s))))
    else st
  setSelectedGo w multiple snapshot opts st els

/-- A `setHovered` target: `el` falsy, `getModel` unresolved, or a
component. -/
inductive HovTarget where
  | empty
  | unresolved
  | comp (m : Nat)

/-- `setHovered(el, opts)` (lines 448-474).  A falsy `el` clears the
hovered entity; an unresolved one returns; `forceChange` clears first;
a non-`hoverable` entity triggers the `useValid && !abort` parent walk or
drops the candidate; the commit is skipped under `abort`. -/
def setHovered (w : World) (target : HovTarget) (opts : SelOpts) (st : EdState) : EdState :=
  match target with
  | HovTarget.empty => { st with hovered := none }
  | HovTarget.unresolved => st
  | HovTarget.comp m =>
    let st := if opts.forceChange then { st with hovered := none } else st
    let model0 : Option (Option Nat) :=
      if !(w.hoverableOf m) then
        if opts.useValid && !opts.abort then
          some (climbHoverable w w.comps.length (w.parentOf m))
        else none
      else some (some m)
    match model0 with
    | none => st
    | some model =>
      if !opts.abort then { st with hovered := model } else st

/-- The strict ancestor chain of an entity: the successive `parent()`
references up to the root.  Used to state what “nearest selectable
ancestor” means independently of the fuelled walk. -/
inductive AncChain (w : World) : Nat → List Nat → Prop
  | nil {i : Nat} : w.parentOf i = none → AncChain w i []
  | cons {i p : Nat} {rest : List Nat} :
      w.parentOf i = some p → AncChain w p rest → AncChain w i (p :: rest)

/-! ## Concrete instances used by witnesses and counterexamples -/

/-- Primary instance ready, shallow instance not ready (the shipped
configuration: `loadOnStart` is never invoked on the shallow instance). -/
def wTrack : TrackWorld := ⟨⟨0, true, false⟩, ⟨0, false, false⟩, none⟩

/-- Both instances ready: exhibits the shared `timedInterval` slot. -/
def wBoth : TrackWorld := ⟨⟨0, true, false⟩, ⟨0, true, false⟩, none⟩

def stPersist : PersistEditor := ⟨5, [[("components", 1)], [("styles", 2)]]⟩

def okBackend : List (String × Nat) → Except Nat Nat := fun _ => Except.ok 7

def errBackend : List (String × Nat) → Except Nat Nat := fun _ => Except.error 9

def mCss : ModDesc := ⟨"CssComposer", true, true, true, false, false⟩

def mDom : ModDesc := ⟨"DomComponents", true, true, true, true, false⟩

def mPages : ModDesc := ⟨"PageManager", true, true, true, true, false⟩

def mUtils : ModDesc := ⟨"Utils", false, false, false, true, false⟩

/-- Five selectable siblings A,B,C,D,E (ids 0..4) in one collection,
multi-selection enabled. -/
def wRange : World :=
  ⟨[⟨0, true, true, none, some 0⟩, ⟨1, true, true, none, some 0⟩, ⟨2, true, true, none, some 0⟩,
    ⟨3, true, true, none, some 0⟩, ⟨4, true, true, none, some 0⟩],
   [(0, [0, 1, 2, 3, 4])], true⟩

/-- A selectable child (id 1) under a selectable parent (id 0). -/
def wAbortCx : World := ⟨[⟨0, true, true, none, none⟩, ⟨1, true, true, some 0, none⟩], [], false⟩

/-- A non-selectable child (id 2) under a non-selectable parent (id 1)
under a selectable root (id 0); id 5 does not exist. -/
def wClimb : World :=
  ⟨[⟨0, true, true, none, none⟩, ⟨1, false, false, some 0, none⟩, ⟨2, false, false, some 1, none⟩],
   [], false⟩

/-- One selectable entity in one collection, multi-selection enabled. -/
def wShiftNone : World := ⟨[⟨0, true, true, none, some 0⟩], [(0, [0])], true⟩

def emptySel : EdState := ⟨[], none⟩

/-! ## Helper lemmas -/

theorem notifyBurst_clean (who : InstId) :
    ∀ (opts : List TrackOpts) (w : TrackWorld), (∀ o ∈ opts, cleanOpt o) →
      (instOf w who).ready = true → (instOf w who).skipFlag = false →
      notifyBurst w who opts = if opts.isEmpty then w else { w with timed := some who } := by
  intro opts
  induction opts with
  | nil => intro w _ _ _; rfl
  | cons o rest ih =>
    intro w hclean hready hskip
    have ho := hclean o (List.mem_cons_self o rest)
    obtain ⟨h1, h2, h3⟩ := ho
    have hstep : handleUpdates w who o = { w with timed := some who } := by
      unfold handleUpdates
      simp [hready, hskip, h1, h2, h3]
    have hinst : instOf { w with timed := some who } who = instOf w who := by
      cases who <;> rfl
    have := ih { w with timed := some who }
      (fun o ho => hclean o (List.mem_cons_of_mem _ ho))
      (by rw [hinst]; exact hready) (by rw [hinst]; exact hskip)
    show notifyBurst (handleUpdates w who o) who rest = _
    rw [hstep, this]
    cases rest <;> simp

theorem runReadyEvs_ready (evs : List ReadyEv) :
    ∀ f : ReadyFlags, (runReadyEvs f evs).ready = (f.ready || reachedBoth f evs) := by
  induction evs with
  | nil => intro f; simp [runReadyEvs, reachedBoth]
  | cons ev rest ih =>
    intro f
    show (runReadyEvs (applyReadyEv f ev) rest).ready = _
    rw [ih]
    have hr : (applyReadyEv f ev).ready
        = (f.ready || ((setFlag f ev).readyLoad && (setFlag f ev).readyCanvas)) := by
      obtain ⟨l, c, r⟩ := f
      cases ev with
      | setLoad b => cases l <;> cases c <;> cases r <;> cases b <;> decide
      | setCanvas b => cases l <;> cases c <;> cases r <;> cases b <;> decide
    have hflags : (applyReadyEv f ev).readyLoad = (setFlag f ev).readyLoad
        ∧ (applyReadyEv f ev).readyCanvas = (setFlag f ev).readyCanvas := by
      obtain ⟨l, c, r⟩ := f
      cases ev with
      | setLoad b => cases l <;> cases c <;> cases r <;> cases b <;> exact ⟨rfl, rfl⟩
      | setCanvas b => cases l <;> cases c <;> cases r <;> cases b <;> exact ⟨rfl, rfl⟩
    rw [show reachedBoth f (ev :: rest)
        = (((applyReadyEv f ev).readyLoad && (applyReadyEv f ev).readyCanvas)
            || reachedBoth (applyReadyEv f ev) rest) from rfl]
    rw [hr, hflags.1, hflags.2, Bool.or_assoc]

theorem loadModules_storables (ms : List ModDesc) :
    ∀ st : RegistryState, ms.countP dcStorable ≤ 1 →
      (loadModules st ms).storables
        = ms.filter dcStorable ++ st.storables ++ ms.filter otherStorable := by
  induction ms with
  | nil => intro st _; simp [loadModules]
  | cons m rest ih =>
    intro st hcount
    show (loadModules (loadModule st m) rest).storables = _
    by_cases hdc : dcStorable m = true
    · have hparts : isStorable m = true ∧ isDomComponents m = true := by
        simpa [dcStorable] using hdc
      have hrest0 : rest.countP dcStorable = 0 := by
        rw [List.countP_cons_of_pos _ _ hdc] at hcount
        omega
      have hfilter : rest.filter dcStorable = [] := by
        rw [List.countP_eq_length_filter] at hrest0
        exact List.length_eq_zero.mp hrest0
      have hrec := ih (loadModule st m) (by omega)
      rw [hrec, hfilter]
      have hload : (loadModule st m).storables = m :: st.storables := by
        unfold loadModule
        simp [hparts.1, hparts.2]
      rw [hload]
      have hother : otherStorable m = false := by
        unfold otherStorable
        simp [hparts.2]
      simp [List.filter_cons, hdc, hother, hfilter]
    · have hdcf : dcStorable m = false := by simpa using hdc
      have hcount2 : rest.countP dcStorable ≤ 1 := by
        rw [List.countP_cons_of_neg _ _ (by simp [hdcf])] at hcount
        exact hcount
      have hrec := ih (loadModule st m) hcount2
      rw [hrec]
      by_cases hst : isStorable m = true
      · have hdcm : isDomComponents m = false := by
          simpa [dcStorable, hst] using hdcf
        have hload : (loadModule st m).storables = st.storables ++ [m] := by
          unfold loadModule
          simp [hst, hdcm]
        have hother : otherStorable m = true := by
          unfold otherStorable
          simp [hst, hdcm]
        rw [hload]
        simp [List.filter_cons, hdcf, hother]
      · have hstf : isStorable m = false := by simpa using hst
        have hload : (loadModule st m).storables = st.storables := by
          unfold loadModule
          simp [hstf]
        have hother : otherStorable m = false := by
          unfold otherStorable
          simp [hstf]
        rw [hload]
        simp [List.filter_cons, hdcf, hother]

/-- The singleton (or empty) Selection Set the validity fallback produces:
the first selectable entity along the ancestor chain, when there is one. -/
def anc2sel (w : World) (as : List Nat) : List Nat :=
  match as.find? (fun a => w.selectableOf a) with
  | some a => [a]
  | none => []

theorem climbSelectable_chain (w : World) :
    ∀ (as : List Nat) (i fuel : Nat), AncChain w i as → as.length ≤ fuel →
      climbSelectable w fuel (w.parentOf i) = as.find? (fun a => w.selectableOf a) := by
  intro as
  induction as with
  | nil =>
    intro i fuel hch _
    cases hch with
    | nil h => rw [h]; cases fuel <;> rfl
  | cons p rest ih =>
    intro i fuel hch hlen
    cases hch with
    | cons hp hrest =>
      rw [hp]
      cases fuel with
      | zero => simp at hlen
      | succ f =>
        show (if w.selectableOf p then some p else climbSelectable w f (w.parentOf p)) = _
        by_cases hs : w.selectableOf p = true
        · simp [hs, List.find?_cons]
        · have hsf : w.selectableOf p = false := by simpa using hs
          rw [List.find?_cons]
          simp only [hsf, if_neg (by simp : ¬(false = true))]
          exact ih p f hrest (by simpa using Nat.le_of_succ_le_succ hlen)

theorem climbHoverable_sound (w : World) :
    ∀ (fuel : Nat) (p : Option Nat) (a : Nat),
      climbHoverable w fuel p = some a → w.hoverableOf a = true := by
  intro fuel
  induction fuel with
  | zero => intro p a h; cases p <;> simp [climbHoverable] at h
  | succ f ih =>
    intro p a h
    cases p with
    | none => simp [climbHoverable] at h
    | some q =>
      by_cases hq : w.hoverableOf q = true
      · have haq : q = a := by simpa [climbHoverable, hq] using h
        rw [← haq]; exact hq
      · have hqf : w.hoverableOf q = false := by simpa using hq
        exact ih (w.parentOf q) a (by simpa [climbHoverable, hqf] using h)

theorem find?_anc_ne (w : World) (as : List Nat) (m a : Nat) (hm : m ∉ as)
    (h : as.find? (fun a => w.selectableOf a) = some a) : a ≠ m := by
  intro hEq
  exact hm (hEq ▸ List.mem_of_find?_eq_some h)

theorem filter_beq_nodup (a : Nat) :
    ∀ l : List Nat, l.Nodup → l.filter (fun s => s == a) = if a ∈ l then [a] else [] := by
  intro l
  induction l with
  | nil => intro _; rfl
  | cons b t ih =>
    intro hnd
    have hbt : b ∉ t := (List.nodup_cons.mp hnd).1
    have hndt : t.Nodup := (List.nodup_cons.mp hnd).2
    rw [List.filter_cons]
    by_cases hba : b = a
    · subst hba
      have htf : t.filter (fun s => s == b) = [] := by
        rw [ih hndt, if_neg hbt]
      simp [htf]
    · have hne : (b == a) = false := by simpa using hba
      simp only [hne, if_neg (by simp : ¬(false = true))]
      rw [ih hndt]
      by_cases hat : a ∈ t
      · rw [if_pos hat, if_pos (List.mem_cons_of_mem _ hat)]
      · rw [if_neg hat, if_neg (by
          intro h
          rcases List.mem_cons.mp h with h | h
          · exact hba h.symm
          · exact hat h)]

/-- Removing `selected.filter (s !== a)` from a duplicate-free Selection Set
keeps exactly `a` (when present). -/
theorem removeKeep (l : List Nat) (a : Nat) (hnd : l.Nodup) :
    l.filter (fun s => !((l.filter (fun x => x != a)).contains s))
      = if a ∈ l then [a] else [] := by
  have hcongr : l.filter (fun s => !((l.filter (fun x => x != a)).contains s))
      = l.filter (fun s => s == a) := by
    apply List.filter_congr
    intro s hs
    by_cases hsa : s = a
    · subst hsa
      have hnotin : s ∉ l.filter (fun x => x != s) := by
        intro hmem
        have h2 := (List.mem_filter.mp hmem).2
        simp at h2
      simp [hnotin]
    · have hin : s ∈ l.filter (fun x => x != a) := by
        rw [List.mem_filter]
        exact ⟨hs, by simpa using hsa⟩
      simp [hin, hsa]
  rw [hcongr]
  exact filter_beq_nodup a l hnd

theorem filter_eq_singleton_of_count_le_one {p : ModDesc → Bool} :
    ∀ (ms : List ModDesc), ms.countP p ≤ 1 → ∀ d ∈ ms, p d = true →
      ms.filter p = [d] := by
  intro ms
  induction ms with
  | nil => intro _ d hd; exact absurd hd (List.not_mem_nil d)
  | cons m rest ih =>
    intro hcount d hd hp
    rcases List.mem_cons.mp hd with h | h
    · subst h
      have hrest0 : rest.countP p = 0 := by
        rw [List.countP_cons_of_pos _ _ hp] at hcount
        omega
      have hfilter : rest.filter p = [] := by
        rw [List.countP_eq_length_filter] at hrest0
        exact List.length_eq_zero.mp hrest0
      simp [List.filter_cons, hp, hfilter]
    · by_cases hm : p m = true
      · have : 0 < rest.countP p := List.countP_pos_iff.2 ⟨d, h, hp⟩
        rw [List.countP_cons_of_pos _ _ hm] at hcount
        omega
      · have hmf : p m = false := by simpa using hm
        have hcount2 : rest.countP p ≤ 1 := by
          rw [List.countP_cons_of_neg _ _ (by simp [hmf])] at hcount
          exact hcount
        rw [List.filter_cons, if_neg (by simp [hmf])]
        exact ih hcount2 d h hp

/-- The plain single-target path on a selectable entity `a`: removing the
snapshot minus `a`, then adding `a`, leaves exactly `[a]` selected. -/
theorem plainReplace (w : World) (st : EdState) (a : Nat) (fc : Bool)
    (hsel : w.selectableOf a = true) (hnd : st.selected.Nodup) :
    addSelected w (removeSelected st (st.selected.filter (fun s => s != a))) (some a) fc
      = ⟨[a], st.hovered⟩ := by
  have hkey := removeKeep st.selected a hnd
  have h1 : removeSelected st (st.selected.filter (fun s => s != a))
      = ⟨(if a ∈ st.selected then [a] else []), st.hovered⟩ := by
    show EdState.mk
      (st.selected.filter (fun s => !((st.selected.filter (fun x => x != a)).contains s)))
      st.hovered = _
    rw [hkey]
  rw [h1]
  by_cases hmem : a ∈ st.selected
  · rw [if_pos hmem]
    cases fc <;>
      simp [addSelected, removeSelected, removeComponentSel, addComponentSel, hsel]
  · rw [if_neg hmem]
    cases fc <;>
      simp [addSelected, removeSelected, removeComponentSel, addComponentSel, hsel]

theorem setSelected_fallback (w : World) (st : EdState) (m : Nat) (as : List Nat) (opts : SelOpts)
    (hctrl : opts.ctrlKey = false) (hshift : opts.shiftKey = false)
    (henter : (!(w.selectableOf m) || opts.abort) = true)
    (hch : AncChain w m as) (hlen : as.length ≤ w.comps.length)
    (hnd : st.selected.Nodup) :
    (opts.useValid = false → setSelected w (SelTarget.one (some m)) opts st = some st) ∧
    (opts.useValid = true →
      setSelected w (SelTarget.one (some m)) opts st = some ⟨anc2sel w as, st.hovered⟩) := by
  constructor
  · intro huv
    simp [setSelected, setSelectedGo, setSelectedStep, henter, huv]
  · intro huv
    have hclimb := climbSelectable_chain w as m w.comps.length hch hlen
    cases hfind : as.find? (fun a => w.selectableOf a) with
    | some a =>
      have hsel : w.selectableOf a = true := by
        have h2 := List.find?_some hfind
        simpa using h2
      have hplain := plainReplace w st a opts.forceChange hsel hnd
      simp only [setSelected, setSelectedGo, setSelectedStep, henter, huv, hclimb, hfind, hctrl,
        hshift, anc2sel, Bool.false_and, Bool.not_false, Bool.false_eq_true, if_true, if_false,
        reduceIte]
      rw [hplain]
    | none =>
      have hempty : st.selected.filter (fun s => !(st.selected.contains s)) = [] := by
        rw [List.filter_eq_nil_iff]
        intro s hs
        simp [hs]
      simp only [setSelected, setSelectedGo, setSelectedStep, henter, huv, hclimb, hfind, hctrl,
        hshift, anc2sel, Bool.false_and, Bool.not_false, Bool.false_eq_true, if_true, if_false,
        reduceIte]
      simp [removeSelected, removeComponentSel, addSelected, addComponentSel, hempty]

/-- Every branch of the `forEach` body yields a state except the range
branch on a missing entity. -/
theorem setSelectedStep_isSome (w : World) (multiple : Bool) (snap : List Nat) (opts : SelOpts)
    (st : EdState) (el : Option Nat) (h : (opts.shiftKey && w.multipleSelection) = false) :
    (setSelectedStep w multiple snap opts st el).isSome = true := by
  cases el with
  | none =>
    by_cases hc1 : (opts.ctrlKey && w.multipleSelection) = true
    · simp [setSelectedStep, hc1]
    · have hc1f : (opts.ctrlKey && w.multipleSelection) = false := by simpa using hc1
      simp [setSelectedStep, hc1f, h]
  | some m =>
    by_cases hval : (!(w.selectableOf m) || opts.abort) = true
    · by_cases huv : opts.useValid = true
      · cases hcl : climbSelectable w w.comps.length (w.parentOf m) with
        | none =>
          by_cases hc1 : (opts.ctrlKey && w.multipleSelection) = true
          · simp [setSelectedStep, hval, huv, hcl, hc1]
          · have hc1f : (opts.ctrlKey && w.multipleSelection) = false := by simpa using hc1
            simp [setSelectedStep, hval, huv, hcl, hc1f, h]
        | some a =>
          by_cases hc1 : (opts.ctrlKey && w.multipleSelection) = true
          · simp [setSelectedStep, hval, huv, hcl, hc1]
          · have hc1f : (opts.ctrlKey && w.multipleSelection) = false := by simpa using hc1
            simp [setSelectedStep, hval, huv, hcl, hc1f, h]
      · have huvf : opts.useValid = false := by simpa using huv
        simp [setSelectedStep, hval, huvf]
    · have hvalf : (!(w.selectableOf m) || opts.abort) = false := by simpa using hval
      by_cases hc1 : (opts.ctrlKey && w.multipleSelection) = true
      · simp [setSelectedStep, hvalf, hc1]
      · have hc1f : (opts.ctrlKey && w.multipleSelection) = false := by simpa using hc1
        simp [setSelectedStep, hvalf, hc1f, h]

theorem setSelectedGo_isSome (w : World) (multiple : Bool) (snap : List Nat) (opts : SelOpts)
    (h : (opts.shiftKey && w.multipleSelection) = false) :
    ∀ (els : List (Option Nat)) (st : EdState),
      (setSelectedGo w multiple snap opts st els).isSome = true := by
  intro els
  induction els with
  | nil => intro st; rfl
  | cons el rest ih =>
    intro st
    have hstep := setSelectedStep_isSome w multiple snap opts st el h
    cases hres : setSelectedStep w multiple snap opts st el with
    | none => rw [hres] at hstep; simp at hstep
    | some st2 =>
      show (setSelectedGo w multiple snap opts st (el :: rest)).isSome = true
      simp only [setSelectedGo, hres]
      exact ih st2

/-- `setSelected` can only fail (throw) when the range modifier is active
and multi-selection is enabled. -/
theorem setSelected_none_only_range (w : World) (target : SelTarget) (opts : SelOpts)
    (st : EdState) (h : setSelected w target opts st = none) :
    opts.shiftKey = true ∧ w.multipleSelection = true := by
  by_cases hsm : (opts.shiftKey && w.multipleSelection) = true
  · simpa using hsm
  · exfalso
    have hf : (opts.shiftKey && w.multipleSelection) = false := by simpa using hsm
    cases target with
    | one m =>
      have hs := setSelectedGo_isSome w false st.selected opts hf [m] st
      have h2 : setSelectedGo w false st.selected opts st [m] = none := h
      rw [h2] at hs
      simp at hs
    | many ms =>
      have hs := setSelectedGo_isSome w true st.selected opts hf ms
        (removeSelected st (st.selected.filter (fun s => !(ms.contains (some s)))))
      have h2 : setSelectedGo w true st.selected opts
          (removeSelected st (st.selected.filter (fun s => !(ms.contains (some s))))) ms
            = none := h
      rw [h2] at hs
      simp at hs

/-! ## Claim theorems -/

/-- Claim C1: for a ready editor instance with the skip flag unset, a burst
of N ≥ 1 consecutive mutation notifications within one scheduler turn, none
carrying `temporary`, `noCount` or `avoidStore`, increments `changesCount`
by exactly 1 when the deferred timer fires — not by N. -/
theorem C1_burst_single_increment (w : TrackWorld) (who : InstId) (opts : List TrackOpts)
    (hne : opts ≠ []) (hclean : ∀ o ∈ opts, cleanOpt o)
    (hready : (instOf w who).ready = true) (hskip : (instOf w who).skipFlag = false) :
    (instOf (fireTimed (notifyBurst w who opts)) who).changesCount
      = (instOf w who).changesCount + 1 := by
  have hburst := notifyBurst_clean who opts w hclean hready hskip
  have hne2 : opts.isEmpty = false := by
    cases opts with
    | nil => exact absurd rfl hne
    | cons a l => rfl
  rw [hburst, if_neg (by simp [hne2])]
  cases who <;> simp [fireTimed, instOf, setInst]

theorem C1_burst_single_increment_witness :
    (∀ o ∈ [({} : TrackOpts), {}, {}], cleanOpt o) ∧
    (instOf (fireTimed (notifyBurst wTrack InstId.primary [{}, {}, {}])) InstId.primary).changesCount
      = (instOf wTrack InstId.primary).changesCount + 1 :=
  ⟨by simp [cleanOpt],
   C1_burst_single_increment wTrack InstId.primary [{}, {}, {}]
     (by decide) (by simp [cleanOpt]) (by decide) (by decide)⟩

/-- Claim C2: with a configured storage backend, `store` invokes the
success callback with the backend's result and resets `changesCount` to 0
on success; on failure it invokes the failure callback with the error and
leaves the whole state (in particular `changesCount`) unchanged. -/
theorem C2_store_callbacks_counter (st : PersistEditor)
    (backend : List (String × Nat) → Except Nat Nat) (r e : Nat) :
    (backend (storeData st) = Except.ok r →
      store st (some backend) = ({ st with changesCount := 0 }, some (Except.ok r))) ∧
    (backend (storeData st) = Except.error e →
      store st (some backend) = (st, some (Except.error e))) := by
  constructor <;> intro h <;> simp [store, h]

theorem C2_store_callbacks_counter_witness :
    (okBackend (storeData stPersist) = Except.ok 7 ∧
      store stPersist (some okBackend) = ({ stPersist with changesCount := 0 }, some (Except.ok 7))) ∧
    (errBackend (storeData stPersist) = Except.error 9 ∧
      store stPersist (some errBackend) = (stPersist, some (Except.error 9))) :=
  ⟨⟨rfl, (C2_store_callbacks_counter stPersist okBackend 7 0).1 rfl⟩,
   ⟨rfl, (C2_store_callbacks_counter stPersist errBackend 0 9).2 rfl⟩⟩

/-- Claim C3: with the range (shift) modifier and multi-selection enabled,
among siblings A,B,C,D,E (ids 0–4) in one collection with only B (id 1)
selected, selecting D (id 3) yields exactly the contiguous block
B,C,D — the nearest selected neighbour bound is not crossed. -/
theorem C3_shift_range_selection :
    setSelected wRange (SelTarget.one (some 3)) { shiftKey := true } ⟨[1], none⟩
      = some ⟨[1, 2, 3], none⟩ := by
  decide

/-- Claim C4: over any registration sequence containing at most one
storable module named `domComponents`, the `storables` list consists of
exactly the modules exposing the full `storageKey`/`store`/`load` triad,
with the `domComponents` module first and every other storable module in
registration order after it. -/
theorem C4_storables_order (ms : List ModDesc) (hcount : ms.countP dcStorable ≤ 1) :
    (loadModules initRegistry ms).storables = ms.filter dcStorable ++ ms.filter otherStorable ∧
    (∀ d ∈ ms, dcStorable d = true →
      ((loadModules initRegistry ms).storables).head? = some d) := by
  have h := loadModules_storables ms initRegistry hcount
  have hmain : (loadModules initRegistry ms).storables
      = ms.filter dcStorable ++ ms.filter otherStorable := by
    simpa [initRegistry] using h
  refine ⟨hmain, ?_⟩
  intro d hd hp
  have hfd := filter_eq_singleton_of_count_le_one ms hcount d hd hp
  rw [hmain, hfd]
  rfl

theorem C4_storables_order_witness :
    ([mCss, mDom, mPages, mUtils].countP dcStorable ≤ 1) ∧
    (loadModules initRegistry [mCss, mDom, mPages, mUtils]).storables
      = [mCss, mDom, mPages, mUtils].filter dcStorable
          ++ [mCss, mDom, mPages, mUtils].filter otherStorable :=
  ⟨by decide, (C4_storables_order [mCss, mDom, mPages, mUtils] (by decide)).1⟩

/-- Claim C5 counterexample: the claim says that under `opts.abort` the
candidate is always dropped and the Selection Set left unchanged regardless
of other options, including `opts.useValid`.  In the source (lines
336-344) `abort` enters the same branch as a non-selectable candidate, so
with `useValid` set the parent walk runs and the candidate's selectable
parent is committed: from an empty Selection Set, aborting a select of
entity 1 (whose parent 0 is selectable) ends with entity 0 selected. -/
theorem C5_abort_with_useValid_commits_ancestor_cx :
    setSelected wAbortCx (SelTarget.one (some 1)) { abort := true, useValid := true } emptySel
        = some ⟨[0], none⟩ ∧ (⟨[0], none⟩ : EdState) ≠ emptySel := by
  decide

/-- Claim C5 (amended): with `opts.abort` set and no modifier active, the
candidate itself is always dropped after the before-notification; when
`opts.useValid` is unset the Selection Set is untouched, but when
`opts.useValid` is set the validity walk replaces the candidate by its
nearest selectable strict ancestor (first selectable entity of the
ancestor chain), which is then committed with replace semantics — the
candidate itself is still never selected. -/
theorem C5_abort_drops_candidate (w : World) (st : EdState) (m : Nat) (as : List Nat)
    (opts : SelOpts) (habort : opts.abort = true)
    (hctrl : opts.ctrlKey = false) (hshift : opts.shiftKey = false)
    (hch : AncChain w m as) (hlen : as.length ≤ w.comps.length)
    (hnd : st.selected.Nodup) (hm : m ∉ as) :
    (opts.useValid = false → setSelected w (SelTarget.one (some m)) opts st = some st) ∧
    (opts.useValid = true →
      setSelected w (SelTarget.one (some m)) opts st = some ⟨anc2sel w as, st.hovered⟩
        ∧ m ∉ anc2sel w as) := by
  have henter : (!(w.selectableOf m) || opts.abort) = true := by simp [habort]
  have hfb := setSelected_fallback w st m as opts hctrl hshift henter hch hlen hnd
  refine ⟨hfb.1, fun huv => ⟨hfb.2 huv, ?_⟩⟩
  unfold anc2sel
  cases hfind : as.find? (fun a => w.selectableOf a) with
  | none => simp
  | some a =>
    have hne := find?_anc_ne w as m a hm hfind
    simp only [List.mem_singleton]
    exact fun he => hne he.symm

theorem C5_abort_drops_candidate_witness :
    (({ abort := true, useValid := true } : SelOpts).abort = true ∧ (1 : Nat) ∉ ([0] : List Nat)) ∧
    (setSelected wAbortCx (SelTarget.one (some 1)) { abort := true, useValid := true } emptySel
        = some ⟨anc2sel wAbortCx [0], none⟩ ∧ (1 : Nat) ∉ anc2sel wAbortCx [0]) :=
  ⟨⟨rfl, by decide⟩,
   (C5_abort_drops_candidate wAbortCx emptySel 1 [0] { abort := true, useValid := true }
     rfl rfl rfl (AncChain.cons rfl (AncChain.nil rfl)) (by decide) (by decide) (by decide)).2 rfl⟩

/-- Claim C6: a single-target select of a non-selectable candidate with no
modifier active: with `useValid` set, the parent chain is walked and the
nearest selectable ancestor (first selectable entity of the ancestor
chain) is selected in its place — the empty singleton when no such
ancestor exists, so the candidate is dropped; with `useValid` unset the
call is a no-op and the state is unchanged. -/
theorem C6_useValid_climbs_ancestors (w : World) (st : EdState) (m : Nat) (as : List Nat)
    (opts : SelOpts) (hns : w.selectableOf m = false)
    (hctrl : opts.ctrlKey = false) (hshift : opts.shiftKey = false)
    (hch : AncChain w m as) (hlen : as.length ≤ w.comps.length)
    (hnd : st.selected.Nodup) :
    (opts.useValid = true →
      setSelected w (SelTarget.one (some m)) opts st = some ⟨anc2sel w as, st.hovered⟩) ∧
    (opts.useValid = false → setSelected w (SelTarget.one (some m)) opts st = some st) := by
  have henter : (!(w.selectableOf m) || opts.abort) = true := by simp [hns]
  have hfb := setSelected_fallback w st m as opts hctrl hshift henter hch hlen hnd
  exact ⟨hfb.2, hfb.1⟩

theorem C6_useValid_climbs_ancestors_witness :
    (wClimb.selectableOf 2 = false) ∧
    (setSelected wClimb (SelTarget.one (some 2)) { useValid := true } emptySel
        = some ⟨anc2sel wClimb [1, 0], none⟩) ∧
    (setSelected wClimb (SelTarget.one (some 2)) {} emptySel = some emptySel) :=
  ⟨by decide,
   (C6_useValid_climbs_ancestors wClimb emptySel 2 [1, 0] { useValid := true } (by decide) rfl rfl
     (AncChain.cons rfl (AncChain.cons rfl (AncChain.nil rfl))) (by decide) (by decide)).1 rfl,
   (C6_useValid_climbs_ancestors wClimb emptySel 2 [1, 0] {} (by decide) rfl rfl
     (AncChain.cons rfl (AncChain.cons rfl (AncChain.nil rfl))) (by decide) (by decide)).2 rfl⟩

/-- Claim C7: a mutation notification is ignored entirely — no counter
increment and no deferred work scheduled, the whole world unchanged — when
the skip flag is set, or any of `temporary` / `noCount` / `avoidStore` is
set, or the instance is not yet ready. -/
theorem C7_notification_guards (w : TrackWorld) (who : InstId) (o : TrackOpts)
    (h : (instOf w who).skipFlag = true ∨ o.temporary = true ∨ o.noCount = true ∨
      o.avoidStore = true ∨ (instOf w who).ready = false) :
    handleUpdates w who o = w := by
  unfold handleUpdates
  rcases h with h | h | h | h | h <;> simp [h]

theorem C7_notification_guards_witness :
    (({ temporary := true } : TrackOpts).temporary = true) ∧
    handleUpdates wTrack InstId.primary { temporary := true } = wTrack :=
  ⟨rfl, C7_notification_guards wTrack InstId.primary { temporary := true } (Or.inr (Or.inl rfl))⟩

/-- Claim C8: starting from the all-false defaults, across any sequence of
`readyLoad` / `readyCanvas` updates the derived `ready` flag is true
exactly when some prefix of the sequence has reached a state with both
sub-flags true: it flips at the first such point and never reverts
afterwards while the instance lives. -/
theorem C8_ready_transitions_once (evs : List ReadyEv) :
    (runReadyEvs initialFlags evs).ready = reachedBoth initialFlags evs := by
  have h := runReadyEvs_ready evs initialFlags
  simpa [initialFlags] using h

/-- Claim C9 counterexample: the claim says every selection operation on
invalid input never raises.  In the source, the range branch dereferences
`model.collection` (line 352) even when `getModel` resolved nothing, so a
shift-modified `setSelected` on an unresolvable target with
multi-selection enabled throws a TypeError (modelled as `none`). -/
theorem C9_range_missing_entity_throws_cx :
    setSelected wShiftNone (SelTarget.one none) { shiftKey := true } ⟨[0], none⟩ = none := by
  decide

/-- Claim C9 (amended): selection and hover operations are silent per-entity
no-ops on invalid input — an unresolvable or non-selectable entity is
skipped by `addSelected` / `toggleSelected`, removal of an absent entity
does nothing, an unresolvable or non-hoverable target never becomes
hovered, and a plain select of a non-selectable candidate leaves the state
untouched — and no error is ever raised, EXCEPT in `setSelected`'s range
branch: a thrown `none` can only arise when the shift modifier is active
and multi-selection is enabled (where a missing entity is dereferenced). -/
theorem C9_silent_noop_policy (w : World) (st : EdState) (m : Nat) (opts : SelOpts) :
    (w.selectableOf m = false → addSelected w st (some m) opts.forceChange = st) ∧
    (addSelected w st none opts.forceChange = st) ∧
    (st.selected.contains m = false → removeSelected st [m] = st) ∧
    (toggleSelected w st none opts = st) ∧
    (w.selectableOf m = false → st.selected.contains m = false →
      toggleSelected w st (some m) opts = st) ∧
    (setHovered w HovTarget.unresolved opts st = st) ∧
    (w.hoverableOf m = false → opts.forceChange = false → opts.useValid = false →
      setHovered w (HovTarget.comp m) opts st = st) ∧
    (st.hovered ≠ some m → w.hoverableOf m = false →
      (setHovered w (HovTarget.comp m) opts st).hovered ≠ some m) ∧
    (w.selectableOf m = false → opts.abort = false → opts.useValid = false →
      setSelected w (SelTarget.one (some m)) opts st = some st) ∧
    (∀ target, setSelected w target opts st = none →
      opts.shiftKey = true ∧ w.multipleSelection = true) := by
  refine ⟨?_, rfl, ?_, rfl, ?_, rfl, ?_, ?_, ?_, ?_⟩
  · intro h
    simp [addSelected, h]
  · intro h
    have hm : m ∉ st.selected := by simpa using h
    have hfil : st.selected.filter (fun s => !(([m] : List Nat).contains s)) = st.selected := by
      apply List.filter_eq_self.mpr
      intro s hs
      have hsm : s ≠ m := fun he => hm (he ▸ hs)
      simp [hsm]
    show { st with selected := st.selected.filter (fun s => !(([m] : List Nat).contains s)) } = st
    rw [hfil]
  · intro h1 h2
    have hm2 : m ∉ st.selected := by simpa using h2
    simp [toggleSelected, addSelected, h1, hm2]
  · intro h1 h2 h3
    simp [setHovered, h1, h2, h3]
  · intro hne hh
    unfold setHovered
    by_cases hfc : opts.forceChange = true
    · by_cases huv : opts.useValid = true
      · by_cases hab : opts.abort = true
        · have hcondf : (opts.useValid && !opts.abort) = false := by simp [hab]
          simp [hh, hcondf, hfc]
        · have habf : opts.abort = false := by simpa using hab
          cases hcl : climbHoverable w w.comps.length (w.parentOf m) with
          | none => simp [hh, huv, habf, hcl, hfc]
          | some a =>
            have ha := climbHoverable_sound w w.comps.length (w.parentOf m) a hcl
            have ham : a ≠ m := by
              intro he
              rw [he, hh] at ha
              cases ha
            simp [hh, huv, habf, hcl, hfc, ham]
      · have huvf : opts.useValid = false := by simpa using huv
        simp [hh, huvf, hfc]
    · have hfcf : opts.forceChange = false := by simpa using hfc
      by_cases huv : opts.useValid = true
      · by_cases hab : opts.abort = true
        · have hcondf : (opts.useValid && !opts.abort) = false := by simp [hab]
          simpa [hh, hcondf, hfcf] using hne
        · have habf : opts.abort = false := by simpa using hab
          cases hcl : climbHoverable w w.comps.length (w.parentOf m) with
          | none => simp [hh, huv, habf, hcl, hfcf]
          | some a =>
            have ha := climbHoverable_sound w w.comps.length (w.parentOf m) a hcl
            have ham : a ≠ m := by
              intro he
              rw [he, hh] at ha
              cases ha
            simp [hh, huv, habf, hcl, hfcf, ham]
      · have huvf : opts.useValid = false := by simpa using huv
        simpa [hh, huvf, hfcf] using hne
  · intro h1 h2 h3
    simp [setSelected, setSelectedGo, setSelectedStep, h1, h2, h3]
  · intro target h
    exact setSelected_none_only_range w target opts st h

theorem C9_silent_noop_policy_witness :
    (wClimb.selectableOf 2 = false ∧
      addSelected wClimb ⟨[0], some 0⟩ (some 2) false = ⟨[0], some 0⟩) ∧
    (wClimb.hoverableOf 2 = false ∧
      setHovered wClimb (HovTarget.comp 2) {} ⟨[0], some 0⟩ = ⟨[0], some 0⟩) ∧
    (setSelected wClimb (SelTarget.one (some 2)) {} ⟨[0], some 0⟩ = some ⟨[0], some 0⟩) :=
  ⟨⟨by decide, (C9_silent_noop_policy wClimb ⟨[0], some 0⟩ 2 {}).1 (by decide)⟩,
   ⟨by decide, (C9_silent_noop_policy wClimb ⟨[0], some 0⟩ 2 {}).2.2.2.2.2.2.1 (by decide) rfl rfl⟩,
   (C9_silent_noop_policy wClimb ⟨[0], some 0⟩ 2 {}).2.2.2.2.2.2.2.2.1 (by decide) rfl rfl⟩

/-- Claim C10 counterexample: the claim says the primary and shallow
instances share no mutable state, so a mutation notification on one never
affects the other's Change Counter or cancels its pending debounced
increment.  But `timedInterval` is a module-level variable (line 36)
shared by every instance: with a pending increment on the primary, a
qualifying notification on the (here ready) shallow instance replaces the
shared timer, so at the end of the turn the primary's counter is 0 instead
of 1 and the shallow's is 1. -/
theorem C10_shared_timer_cx :
    (instOf (fireTimed (handleUpdates wBoth InstId.primary {})) InstId.primary).changesCount = 1 ∧
    (instOf (fireTimed (handleUpdates (handleUpdates wBoth InstId.primary {}) InstId.shallow {}))
        InstId.primary).changesCount = 0 ∧
    (instOf (fireTimed (handleUpdates (handleUpdates wBoth InstId.primary {}) InstId.shallow {}))
        InstId.shallow).changesCount = 1 := by
  decide

/-- Claim C10 (amended): the `changesCount` attribute is per instance, but
the debounce timer is module-level state shared by all instances, so a
qualifying notification on any ready instance cancels the other's pending
increment; the shipped isolation holds only because the shallow instance
never becomes ready (`loadOnStart` is not run on it), which makes every
mutation notification delivered to it a complete no-op — leaving the
primary's counter and pending increment untouched. -/
theorem C10_shallow_not_ready_inert (w : TrackWorld) (o : TrackOpts)
    (h : (instOf w InstId.shallow).ready = false) :
    handleUpdates w InstId.shallow o = w := by
  unfold handleUpdates
  simp [h]

theorem C10_shallow_not_ready_inert_witness :
    (instOf wTrack InstId.shallow).ready = false ∧
    handleUpdates wTrack InstId.shallow {} = wTrack :=
  ⟨rfl, C10_shallow_not_ready_inert wTrack {} rfl⟩
